import Mathlib

/-!
# MsgQueue: a verification development for `main.cpp`

The program runs two device threads that push events into a shared
`EventQueue` and one consumer that pops and prints them.  This file embeds

* the event taxonomy (`StartedEvent`, `DataEvent`, `WorkDoneEvent`) and `toString`,
* the two devices `DeviceA`, `DeviceB` and their `getDataAsString`,
* `EventQueue::push` / `EventQueue::pop`,
* the producer loop `read` and the consumer loop `processEvents`,

and proves properties of them.

Modelling conventions.

* `rand()` is a source of non-negative integers: a stream `Nat → Nat` that is
  threaded through the code; each call returns the head and leaves the tail.
* `int count` is an `Int`.  The only arithmetic on it is `count--` under the
  guard `count >= 0`, which cannot leave the range of a machine `int`.
* `std::this_thread::sleep_for` has no effect on the data and is omitted.
* A `while (true)` loop is run with fuel: the number of iterations observed.
* `pop` holds the mutex from the moment `wait_for` returns until it has removed
  the front element, so it is one atomic step on the queue; how `wait_for` ended
  (whether the timeout expired while the queue was empty) is an input of the step.
-/

namespace MsgQueue

/-! ## The random source -/

/-- The values the successive calls of `rand()` return. -/
abbrev RandSource := Nat → Nat

/-- One call of `rand()`: the value returned and the remaining source. -/
def rand (rnd : RandSource) : Nat × RandSource :=
  (rnd 0, fun i => rnd (i + 1))

/-! ## Devices -/

/-- Class `Device`: a name and the virtual method `getDataAsString`, which
consumes values of the random source. -/
structure Device where
  name : String
  getDataAsString : RandSource → String × RandSource

/-- Method `Device::getName`. -/
def Device.getName (device : Device) : String := device.name

/-- The body of the `for (int i = 0; i < length; ++i)` loop of
`DeviceA::getDataAsString`, run for the `length - i` iterations that remain:
`char c = 'A' + rand() % 26; data += c;`. -/
def DeviceA.forLoop : Nat → String → RandSource → String × RandSource
  | 0, data, rnd => (data, rnd)
  | remaining + 1, data, rnd =>
    let r := rand rnd
    let c := Char.ofNat ('A'.toNat + r.1 % 26)
    DeviceA.forLoop remaining (data.push c) r.2

/-- Method `DeviceA::getDataAsString`. -/
def DeviceA.getDataAsString (rnd : RandSource) : String × RandSource :=
  let r := rand rnd
  let length := r.1 % 501
  DeviceA.forLoop length "" r.2

/-- Object `DeviceA()`, constructed as `Device("DeviceA")`. -/
def DeviceA : Device := ⟨"DeviceA", DeviceA.getDataAsString⟩

/-- Function `std::to_string` on a non-negative `int`: its decimal digits. -/
def to_string (n : Nat) : String := Nat.repr n

/-- The number a string of decimal digits denotes. -/
def decimalValue (cs : List Char) : Nat :=
  cs.foldl (fun acc c => 10 * acc + (c.toNat - '0'.toNat)) 0

/-- Method `DeviceB::getDataAsString`. -/
def DeviceB.getDataAsString (rnd : RandSource) : String × RandSource :=
  let r1 := rand rnd
  let number1 := r1.1 % 199
  let r2 := rand r1.2
  let number2 := r2.1 % 199
  let r3 := rand r2.2
  let number3 := r3.1 % 199
  let data := to_string number1 ++ " " ++ to_string number2 ++ " " ++ to_string number3
  (data, r3.2)

/-- Object `DeviceB()`, constructed as `Device("DeviceB")`. -/
def DeviceB : Device := ⟨"DeviceB", DeviceB.getDataAsString⟩

/-! ## Events -/

/-- The three concrete subclasses of `Event`; each holds the device that raised it. -/
inductive Event where
  | StartedEvent (device : Device)
  | DataEvent (device : Device) (data : String)
  | WorkDoneEvent (device : Device)

/-- The virtual method `toString` of the three event classes. -/
def Event.toString : Event → String
  | .DataEvent device data => device.getName ++ " data: " ++ data
  | .WorkDoneEvent device => device.getName ++ " work done"
  | .StartedEvent device => device.getName ++ " started"

/-- Whether an event is a `WorkDoneEvent`. -/
def Event.isWorkDone : Event → Bool
  | .WorkDoneEvent _ => true
  | _ => false

/-! ## The event queue -/

/-- Class `EventQueue`: the `std::queue` of pending events, front first.  The
mutex and the condition variable carry no data. -/
structure EventQueue where
  queue : List Event

/-- A freshly constructed `EventQueue`. -/
def EventQueue.empty : EventQueue := ⟨[]⟩

/-- Method `EventQueue::push`: append at the back. -/
def EventQueue.push (q : EventQueue) (event : Event) : EventQueue :=
  ⟨q.queue ++ [event]⟩

/-- How a call of `EventQueue::pop` stands: it has returned a pointer (an event,
or `nullptr` as `none`) and left the queue in a new state, or it is still blocked
inside `wait_for`. -/
inductive PopOutcome where
  | returned (event : Option Event) (q : EventQueue)
  | blocked

/-- Method `EventQueue::pop`.  `wait_for` returns `true` as soon as the queue is
non-empty, and then the front is removed and returned; it returns `false` when
the timeout expires with the queue still empty, and then `nullptr` is returned;
until one of the two happens the caller stays blocked. -/
def EventQueue.pop (q : EventQueue) (timedOut : Bool) : PopOutcome :=
  match q.queue with
  | event :: rest => .returned (some event) ⟨rest⟩
  | [] => if timedOut then .returned none q else .blocked

/-- An operation some thread performs on the shared queue. -/
inductive QueueOp where
  | push (event : Event)
  | pop (timedOut : Bool)

/-- The queue together with the history of what was pushed onto it and of what
`pop` returned (the `nullptr` results are not events and are not recorded). -/
structure History where
  q : EventQueue
  pushed : List Event
  popped : List Event

/-- The start of a run: an empty queue and nothing pushed or popped. -/
def History.init : History := ⟨EventQueue.empty, [], []⟩

/-- One operation applied to the queue, with the history kept. -/
def History.step (h : History) : QueueOp → History
  | .push event => ⟨h.q.push event, h.pushed ++ [event], h.popped⟩
  | .pop timedOut =>
    match h.q.pop timedOut with
    | .returned (some event) q => ⟨q, h.pushed, h.popped ++ [event]⟩
    | .returned none q => ⟨q, h.pushed, h.popped⟩
    | .blocked => h

/-- An interleaving of operations applied in order. -/
def History.run (h : History) (ops : List QueueOp) : History :=
  ops.foldl History.step h

/-- The relation between queue and history that every operation keeps: what was
popped, followed by what is pending, is what was pushed. -/
def History.Conserved (h : History) : Prop :=
  h.popped ++ h.q.queue = h.pushed

/-! ## The producer loop -/

/-- The variables of `read` that change while it runs. -/
structure ReadState where
  eventQueue : EventQueue
  count : Int
  rnd : RandSource

/-- One pass through the body of the `while (true)` loop of `read`: push a
`DataEvent`, then `if (count >= 0) { count--; if (count == 0) break; }`.  The
flag tells whether the `break` was taken. -/
def readBody (device : Device) (s : ReadState) : Bool × ReadState :=
  let sample := device.getDataAsString s.rnd
  let eventQueue := s.eventQueue.push (Event.DataEvent device sample.1)
  if s.count ≥ 0 then
    let count := s.count - 1
    if count = 0 then (true, ⟨eventQueue, count, sample.2⟩)
    else (false, ⟨eventQueue, count, sample.2⟩)
  else (false, ⟨eventQueue, s.count, sample.2⟩)

/-- The `while (true)` loop of `read` observed for at most `fuel` iterations: the
flag tells whether the loop was left through `break`, and the state is the one
reached. -/
def readLoop : Nat → Device → ReadState → Bool × ReadState
  | 0, _, s => (false, s)
  | fuel + 1, device, s =>
    match readBody device s with
    | (true, s') => (true, s')
    | (false, s') => readLoop fuel device s'

/-- Function `read`: push the `StartedEvent`, run the loop, and after the loop
push the `WorkDoneEvent`.  The result is `none` when the loop is still running
after `fuel` iterations. -/
def read (fuel : Nat) (device : Device) (eventQueue : EventQueue) (count : Int)
    (rnd : RandSource) : Option (EventQueue × RandSource) :=
  let started := eventQueue.push (Event.StartedEvent device)
  match readLoop fuel device ⟨started, count, rnd⟩ with
  | (true, s) => some (s.eventQueue.push (Event.WorkDoneEvent device), s.rnd)
  | (false, _) => none

/-- Function `readDeviceA`. -/
def readDeviceA (fuel : Nat) (eventQueue : EventQueue) (countA : Int) (rnd : RandSource) :
    Option (EventQueue × RandSource) :=
  read fuel DeviceA eventQueue countA rnd

/-- Function `readDeviceB`. -/
def readDeviceB (fuel : Nat) (eventQueue : EventQueue) (countB : Int) (rnd : RandSource) :
    Option (EventQueue × RandSource) :=
  read fuel DeviceB eventQueue countB rnd

/-- The payloads of `k` successive samples of a device, and the random source
left after them. -/
def samples (device : Device) : Nat → RandSource → List String × RandSource
  | 0, rnd => ([], rnd)
  | k + 1, rnd =>
    let sample := device.getDataAsString rnd
    let more := samples device k sample.2
    (sample.1 :: more.1, more.2)

/-! ## The consumer loop -/

/-- Function `processEvents`, run against the results of the successive calls of
`eventQueue.pop()` (`none` is `nullptr`).  Each event is written as one line; on
`nullptr` the function returns.  The result is the lines written and the pop
results that were never asked for; it is `none` when the results run out before a
`nullptr`, that is, when the consumer is left waiting in `pop`. -/
def processEvents : List (Option Event) → Option (List String × List (Option Event))
  | [] => none
  | some event :: rest =>
    match processEvents rest with
    | some (lines, unused) => some (event.toString :: lines, unused)
    | none => none
  | none :: rest => some ([], rest)

/-! ## Lemmas on the producer loop -/

theorem samples_length (device : Device) (k : Nat) (rnd : RandSource) :
    (samples device k rnd).1.length = k := by
  induction k generalizing rnd with
  | zero => rfl
  | succ k ih => simp [samples, ih]

theorem readBody_neg (device : Device) (q : EventQueue) (c : Int) (rnd : RandSource)
    (hc : c < 0) :
    readBody device ⟨q, c, rnd⟩ =
      (false, ⟨q.push (Event.DataEvent device (device.getDataAsString rnd).1), c,
        (device.getDataAsString rnd).2⟩) := by
  have h : ¬ (c ≥ 0) := by omega
  simp [readBody, h]

theorem readBody_one (device : Device) (q : EventQueue) (rnd : RandSource) :
    readBody device ⟨q, 1, rnd⟩ =
      (true, ⟨q.push (Event.DataEvent device (device.getDataAsString rnd).1), 0,
        (device.getDataAsString rnd).2⟩) := by
  simp [readBody]

theorem readBody_other (device : Device) (q : EventQueue) (c : Int) (rnd : RandSource)
    (h0 : 0 ≤ c) (h1 : c ≠ 1) :
    readBody device ⟨q, c, rnd⟩ =
      (false, ⟨q.push (Event.DataEvent device (device.getDataAsString rnd).1), c - 1,
        (device.getDataAsString rnd).2⟩) := by
  have h : c - 1 ≠ 0 := by omega
  simp [readBody, h0, h]

/-- With a negative count the loop never breaks: after `k` iterations it has
pushed `k` data events and the count is what it was. -/
theorem readLoop_neg (device : Device) (c : Int) (hc : c < 0) (k : Nat) (q : EventQueue)
    (rnd : RandSource) :
    readLoop k device ⟨q, c, rnd⟩ =
      (false, ⟨⟨q.queue ++ (samples device k rnd).1.map (Event.DataEvent device)⟩, c,
        (samples device k rnd).2⟩) := by
  induction k generalizing q rnd with
  | zero => simp [readLoop, samples]
  | succ k ih =>
    rw [readLoop, readBody_neg device q c rnd hc]
    simp only [ih, samples, EventQueue.push, List.map_cons, List.append_assoc,
      List.singleton_append]

/-- With count `n + 1` the loop is still running after `k ≤ n` iterations. -/
theorem readLoop_running (device : Device) (n k : Nat) (hk : k ≤ n) (q : EventQueue)
    (rnd : RandSource) :
    readLoop k device ⟨q, (n : Int) + 1, rnd⟩ =
      (false, ⟨⟨q.queue ++ (samples device k rnd).1.map (Event.DataEvent device)⟩,
        (n : Int) + 1 - k, (samples device k rnd).2⟩) := by
  induction k generalizing n q rnd with
  | zero => simp [readLoop, samples]
  | succ k ih =>
    obtain ⟨m, rfl⟩ : ∃ m, n = m + 1 := ⟨n - 1, by omega⟩
    rw [readLoop, readBody_other device q _ rnd (by omega) (by omega)]
    have e : ((m + 1 : Nat) : Int) + 1 - 1 = (m : Int) + 1 := by push_cast; ring
    simp only [e, ih m (by omega), samples, EventQueue.push, List.map_cons,
      List.append_assoc, List.singleton_append]
    congr 2
    push_cast; ring

/-- With count `n + 1` the loop breaks in iteration `n + 1`, and more fuel
changes nothing. -/
theorem readLoop_done (device : Device) (n k : Nat) (hk : n < k) (q : EventQueue)
    (rnd : RandSource) :
    readLoop k device ⟨q, (n : Int) + 1, rnd⟩ =
      (true, ⟨⟨q.queue ++ (samples device (n + 1) rnd).1.map (Event.DataEvent device)⟩,
        0, (samples device (n + 1) rnd).2⟩) := by
  induction n generalizing k q rnd with
  | zero =>
    obtain ⟨j, rfl⟩ : ∃ j, k = j + 1 := ⟨k - 1, by omega⟩
    have e : ((0 : Nat) : Int) + 1 = 1 := by norm_num
    rw [readLoop, e, readBody_one]
    simp [samples, EventQueue.push]
  | succ n ih =>
    obtain ⟨j, rfl⟩ : ∃ j, k = j + 1 := ⟨k - 1, by omega⟩
    rw [readLoop, readBody_other device q _ rnd (by omega) (by omega)]
    have e : ((n + 1 : Nat) : Int) + 1 - 1 = (n : Int) + 1 := by push_cast; ring
    simp only [e, ih j (by omega)]
    simp [samples, EventQueue.push]

/-- With count `0` the loop never breaks: the first iteration makes the count
`-1`, and it stays there. -/
theorem readLoop_zero (device : Device) (k : Nat) (q : EventQueue) (rnd : RandSource) :
    readLoop k device ⟨q, 0, rnd⟩ =
      (false, ⟨⟨q.queue ++ (samples device k rnd).1.map (Event.DataEvent device)⟩,
        if k = 0 then 0 else -1, (samples device k rnd).2⟩) := by
  cases k with
  | zero => simp [readLoop, samples]
  | succ k =>
    rw [readLoop, readBody_other device q 0 rnd (by omega) (by omega)]
    have e : (0 : Int) - 1 = -1 := by norm_num
    simp only [e, readLoop_neg device (-1) (by omega) k]
    simp [samples, EventQueue.push]

/-! ## The producer loop: bounded and unbounded runs -/

/-- C1, at count `0`: the loop of `read` pushes a `DataEvent` in its first
iteration, decrements the count to `-1`, and from then on never breaks.  For
every number of iterations observed, `read` has not returned (so no
`WorkDoneEvent` was pushed), and after `k + 1` iterations it has pushed the
`StartedEvent` and `k + 1` data events, not zero. -/
theorem read_count_zero_never_returns (device : Device) (q : EventQueue) (rnd : RandSource)
    (k : Nat) :
    read k device q 0 rnd = none ∧
    readLoop (k + 1) device ⟨q.push (Event.StartedEvent device), 0, rnd⟩ =
      (false, ⟨⟨q.queue ++ Event.StartedEvent device ::
          (samples device (k + 1) rnd).1.map (Event.DataEvent device)⟩, -1,
        (samples device (k + 1) rnd).2⟩) ∧
    (samples device (k + 1) rnd).1.length = k + 1 := by
  refine ⟨?_, ?_, samples_length _ _ _⟩
  · simp [read, readLoop_zero]
  · rw [readLoop_zero]
    simp [EventQueue.push]

/-- C2: with a negative count, after any number `k` of loop iterations `read` is
still in its loop: what it has pushed is the `StartedEvent` followed by `k` data
events, none of them a `WorkDoneEvent`, the count is unchanged, and `read` has
not returned. -/
theorem read_negative_never_finishes (device : Device) (q : EventQueue) (c : Int)
    (rnd : RandSource) (hc : c < 0) (k : Nat) :
    readLoop k device ⟨q.push (Event.StartedEvent device), c, rnd⟩ =
      (false, ⟨⟨q.queue ++ Event.StartedEvent device ::
          (samples device k rnd).1.map (Event.DataEvent device)⟩, c,
        (samples device k rnd).2⟩) ∧
    (samples device k rnd).1.length = k ∧
    (∀ e ∈ Event.StartedEvent device ::
        (samples device k rnd).1.map (Event.DataEvent device), e.isWorkDone = false) ∧
    read k device q c rnd = none := by
  refine ⟨?_, samples_length _ _ _, ?_, ?_⟩
  · rw [readLoop_neg device c hc]
    simp [EventQueue.push]
  · intro e he
    rcases List.mem_cons.1 he with rfl | he
    · rfl
    · obtain ⟨p, -, rfl⟩ := List.mem_map.1 he
      rfl
  · simp [read, readLoop_neg device c hc]

/-- Witness for C2: count `-1`, device B, three iterations observed. -/
theorem read_negative_never_finishes_witness :
    (-1 : Int) < 0 ∧ read 3 DeviceB EventQueue.empty (-1) (fun i => i) = none :=
  ⟨by decide,
    (read_negative_never_finishes DeviceB EventQueue.empty (-1) (fun i => i)
      (by decide) 3).2.2.2⟩

/-- C10: `read` returns for some amount of fuel exactly when `count ≥ 1`.  For
`count = c ≥ 1` the loop is still running after every `k < c` iterations and
breaks in iteration `c`, and `read` then returns having pushed the
`StartedEvent`, exactly `c` data events and the `WorkDoneEvent`.  Whenever
`read` returns, at least one `DataEvent` precedes the `WorkDoneEvent`. -/
theorem read_terminates_iff (device : Device) (q : EventQueue) (c : Int) (rnd : RandSource) :
    ((∃ fuel, (read fuel device q c rnd).isSome = true) ↔ 1 ≤ c) ∧
    (1 ≤ c →
      (∀ k, k < c.toNat →
        (readLoop k device ⟨q.push (Event.StartedEvent device), c, rnd⟩).1 = false) ∧
      (readLoop c.toNat device ⟨q.push (Event.StartedEvent device), c, rnd⟩).1 = true ∧
      (samples device c.toNat rnd).1.length = c.toNat ∧
      ∀ fuel, c.toNat ≤ fuel →
        read fuel device q c rnd =
          some (⟨q.queue ++ Event.StartedEvent device ::
              (samples device c.toNat rnd).1.map (Event.DataEvent device) ++
              [Event.WorkDoneEvent device]⟩, (samples device c.toNat rnd).2)) ∧
    (∀ fuel q' rnd', read fuel device q c rnd = some (q', rnd') →
      ∃ payloads : List String, payloads ≠ [] ∧
        q'.queue = q.queue ++ Event.StartedEvent device ::
          payloads.map (Event.DataEvent device) ++ [Event.WorkDoneEvent device]) := by
  have hpos : 1 ≤ c → ∀ fuel, c.toNat ≤ fuel →
      read fuel device q c rnd =
        some (⟨q.queue ++ Event.StartedEvent device ::
            (samples device c.toNat rnd).1.map (Event.DataEvent device) ++
            [Event.WorkDoneEvent device]⟩, (samples device c.toNat rnd).2) := by
    intro hc fuel hfuel
    obtain ⟨n, rfl⟩ : ∃ n : Nat, c = (n : Int) + 1 := ⟨(c - 1).toNat, by omega⟩
    have e : ((n : Int) + 1).toNat = n + 1 := by omega
    rw [e] at hfuel ⊢
    simp [read, readLoop_done device n fuel (by omega), EventQueue.push]
  have hnone : ¬ 1 ≤ c → ∀ fuel, read fuel device q c rnd = none := by
    intro hc fuel
    rcases lt_or_eq_of_le (show c ≤ 0 by omega) with h | h
    · simp [read, readLoop_neg device c h]
    · subst h
      simp [read, readLoop_zero]
  refine ⟨⟨?_, ?_⟩, ?_, ?_⟩
  · rintro ⟨fuel, hfuel⟩
    by_contra hc
    rw [hnone hc fuel] at hfuel
    simp at hfuel
  · intro hc
    exact ⟨c.toNat, by rw [hpos hc _ le_rfl]; rfl⟩
  · intro hc
    refine ⟨?_, ?_, samples_length _ _ _, hpos hc⟩
    · intro k hk
      obtain ⟨n, rfl⟩ : ∃ n : Nat, c = (n : Int) + 1 := ⟨(c - 1).toNat, by omega⟩
      rw [readLoop_running device n k (by omega)]
    · obtain ⟨n, rfl⟩ : ∃ n : Nat, c = (n : Int) + 1 := ⟨(c - 1).toNat, by omega⟩
      have e : ((n : Int) + 1).toNat = n + 1 := by omega
      rw [e, readLoop_done device n (n + 1) (by omega)]
  · intro fuel q' rnd' h
    by_cases hc : 1 ≤ c
    · have hlen := samples_length device c.toNat rnd
      have hbig := hpos hc (max fuel c.toNat) (le_max_right _ _)
      have hsame : read fuel device q c rnd = read (max fuel c.toNat) device q c rnd := by
        rcases le_total c.toNat fuel with hle | hle
        · rw [max_eq_left hle]
        · rw [max_eq_right hle]
          rcases Nat.eq_or_lt_of_le hle with heq | hlt
          · rw [heq]
          · exfalso
            obtain ⟨n, rfl⟩ : ∃ n : Nat, c = (n : Int) + 1 := ⟨(c - 1).toNat, by omega⟩
            simp [read, readLoop_running device n fuel (by omega)] at h
      rw [hsame, hbig] at h
      simp only [Option.some.injEq, Prod.mk.injEq] at h
      refine ⟨(samples device c.toNat rnd).1, ?_, ?_⟩
      · intro hnil
        rw [hnil] at hlen
        simp at hlen
        omega
      · rw [← h.1]
    · rw [hnone hc fuel] at h
      simp at h

/-- Witness for C10: count `2`, device B. -/
theorem read_terminates_iff_witness :
    (1 : Int) ≤ 2 ∧ ∃ fuel, (read fuel DeviceB EventQueue.empty 2 (fun i => i)).isSome = true :=
  ⟨by decide, (read_terminates_iff DeviceB EventQueue.empty 2 (fun i => i)).1.2 (by decide)⟩

/-! ## The event queue: order and conservation -/

theorem History.init_conserved : History.init.Conserved := rfl

theorem History.step_conserved (h : History) (op : QueueOp) (hc : h.Conserved) :
    (h.step op).Conserved := by
  obtain ⟨⟨pending⟩, pushed, popped⟩ := h
  simp only [History.Conserved] at hc
  cases op with
  | push event =>
    simp [History.step, History.Conserved, EventQueue.push, ← hc]
  | pop timedOut =>
    cases pending with
    | nil =>
      cases timedOut <;> simpa [History.step, History.Conserved, EventQueue.pop] using hc
    | cons event rest =>
      simpa [History.step, History.Conserved, EventQueue.pop] using hc

theorem History.run_conserved (ops : List QueueOp) (h : History) (hc : h.Conserved) :
    (h.run ops).Conserved := by
  induction ops generalizing h with
  | nil => exact hc
  | cons op ops ih => exact ih (h.step op) (History.step_conserved h op hc)

/-- Popping a queue as many times as it holds events returns all of them, front
first, and leaves it empty, whether or not a timeout would have expired. -/
theorem History.run_drain (pending pushed popped : List Event) (timedOut : Bool) :
    (History.mk ⟨pending⟩ pushed popped).run
        (List.replicate pending.length (QueueOp.pop timedOut)) =
      ⟨⟨[]⟩, pushed, popped ++ pending⟩ := by
  induction pending generalizing popped with
  | nil => simp [History.run]
  | cons event rest ih =>
    have h := ih (popped ++ [event])
    simp only [History.run] at h
    simp [History.run, List.replicate_succ, History.step, EventQueue.pop, h]

/-- C3: for every interleaving of `push` and `pop` operations on a queue that
starts empty, the events `pop` has returned are, in order, an initial segment of
the events pushed; so for any one producer (any selection `p` of events) the
events of that producer come out of `pop` in the order they were pushed. -/
theorem eventQueue_fifo (ops : List QueueOp) :
    (History.init.run ops).popped <+: (History.init.run ops).pushed ∧
    ∀ p : Event → Bool,
      (History.init.run ops).popped.filter p <+: (History.init.run ops).pushed.filter p := by
  have hc : (History.init.run ops).popped ++ (History.init.run ops).q.queue =
      (History.init.run ops).pushed :=
    History.run_conserved ops History.init History.init_conserved
  have hp : (History.init.run ops).popped <+: (History.init.run ops).pushed :=
    ⟨_, hc⟩
  exact ⟨hp, fun p => hp.filter p⟩

/-- C4: for every interleaving of `push` and `pop` operations on a queue that
starts empty, the events popped followed by the events pending are exactly the
events pushed; whenever the queue is empty, the popped events are the pushed
events, one for one, and as many. -/
theorem eventQueue_conservation (ops : List QueueOp) :
    (History.init.run ops).popped ++ (History.init.run ops).q.queue =
      (History.init.run ops).pushed ∧
    ((History.init.run ops).q.queue = [] →
      (History.init.run ops).popped = (History.init.run ops).pushed ∧
      (History.init.run ops).popped.length = (History.init.run ops).pushed.length) := by
  have hc : (History.init.run ops).popped ++ (History.init.run ops).q.queue =
      (History.init.run ops).pushed :=
    History.run_conserved ops History.init History.init_conserved
  refine ⟨hc, fun hempty => ?_⟩
  rw [hempty, List.append_nil] at hc
  exact ⟨hc, by rw [hc]⟩

/-- Witness for C4: two pushes by device A, one by device B, and three pops. -/
theorem eventQueue_conservation_witness :
    (History.init.run
      [QueueOp.push (Event.StartedEvent DeviceA), QueueOp.pop false,
        QueueOp.push (Event.StartedEvent DeviceB), QueueOp.push (Event.DataEvent DeviceA "QX"),
        QueueOp.pop false, QueueOp.pop true]).popped.length =
    (History.init.run
      [QueueOp.push (Event.StartedEvent DeviceA), QueueOp.pop false,
        QueueOp.push (Event.StartedEvent DeviceB), QueueOp.push (Event.DataEvent DeviceA "QX"),
        QueueOp.pop false, QueueOp.pop true]).pushed.length :=
  ((eventQueue_conservation
      [QueueOp.push (Event.StartedEvent DeviceA), QueueOp.pop false,
        QueueOp.push (Event.StartedEvent DeviceB), QueueOp.push (Event.DataEvent DeviceA "QX"),
        QueueOp.pop false, QueueOp.pop true]).2 rfl).2

/-- C5 as stated fails: no operation `close` on the queue can keep the pending
events and make `pop` on the closed and empty queue return the null pointer
rather than block.  The state of `EventQueue` is the pending events alone, and
`pop` on an empty queue blocks until the timeout expires. -/
theorem eventQueue_no_close :
    ¬ ∃ close : EventQueue → EventQueue, ∀ q : EventQueue,
      (close q).queue = q.queue ∧
      (q.queue = [] → (close q).pop false = PopOutcome.returned none (close q)) := by
  rintro ⟨close, h⟩
  obtain ⟨hq, hpop⟩ := h EventQueue.empty
  have hnil : (close EventQueue.empty).queue = [] := hq
  have hblocked : (close EventQueue.empty).pop false = PopOutcome.blocked := by
    simp [EventQueue.pop, hnil]
  rw [hblocked] at hpop
  exact PopOutcome.noConfusion (hpop rfl)

/-- C5, amended: `pop` returns the front event whenever one is pending, whatever
the timeout did, so it never returns the null pointer while an event is pending;
popping as often as there are pending events returns them all in the order they
were pushed; on an empty queue `pop` blocks until the timeout expires and returns
the null pointer when it does, leaving the queue as it was. -/
theorem eventQueue_pop_timeout (q : EventQueue) (timedOut : Bool) :
    (∀ event rest, q.queue = event :: rest →
      q.pop timedOut = PopOutcome.returned (some event) ⟨rest⟩) ∧
    (History.mk q [] []).run (List.replicate q.queue.length (QueueOp.pop timedOut)) =
      ⟨⟨[]⟩, [], q.queue⟩ ∧
    (q.queue = [] →
      q.pop false = PopOutcome.blocked ∧ q.pop true = PopOutcome.returned none q) ∧
    (∀ q', q.pop timedOut = PopOutcome.returned none q' →
      q.queue = [] ∧ timedOut = true ∧ q' = q) := by
  obtain ⟨pending⟩ := q
  refine ⟨?_, ?_, ?_, ?_⟩
  · intro event rest h
    simp only at h
    simp [EventQueue.pop, h]
  · simpa using History.run_drain pending [] [] timedOut
  · intro h
    simp only at h
    simp [EventQueue.pop, h]
  · intro q' h
    cases pending with
    | nil =>
      cases timedOut
      · simp [EventQueue.pop] at h
      · simp only [EventQueue.pop, if_true, PopOutcome.returned.injEq, true_and] at h
        exact ⟨rfl, rfl, h.symm⟩
    | cons event rest => simp [EventQueue.pop] at h

/-- Witness for C5, amended: a queue holding two events of device B. -/
theorem eventQueue_pop_timeout_witness :
    (EventQueue.mk [Event.StartedEvent DeviceB, Event.WorkDoneEvent DeviceB]).pop true =
      PopOutcome.returned (some (Event.StartedEvent DeviceB))
        ⟨[Event.WorkDoneEvent DeviceB]⟩ :=
  (eventQueue_pop_timeout ⟨[Event.StartedEvent DeviceB, Event.WorkDoneEvent DeviceB]⟩ true).1
    _ _ rfl

/-! ## Rendering and the consumer loop -/

/-- C6: for every device name `n` (and whatever the device samples) and every
payload `p`, a `StartedEvent` renders as `n ++ " started"`, a `DataEvent` as
`n ++ " data: " ++ p`, and a `WorkDoneEvent` as `n ++ " work done"`. -/
theorem toString_format (n p : String) (sample : RandSource → String × RandSource) :
    (Event.StartedEvent ⟨n, sample⟩).toString = n ++ " started" ∧
    (Event.DataEvent ⟨n, sample⟩ p).toString = n ++ " data: " ++ p ∧
    (Event.WorkDoneEvent ⟨n, sample⟩).toString = n ++ " work done" :=
  ⟨rfl, rfl, rfl⟩

/-- C7: when the calls of `pop` return the events `e1 .. en` and then the null
pointer, `processEvents` returns, having written exactly `n` lines, the `i`-th
being `toString ei`; it writes nothing for the null pointer and asks for no pop
result after it. -/
theorem processEvents_lines (events : List Event) (later : List (Option Event)) :
    processEvents (events.map some ++ none :: later) =
      some (events.map Event.toString, later) ∧
    (events.map Event.toString).length = events.length := by
  refine ⟨?_, List.length_map _ _⟩
  induction events with
  | nil => rfl
  | cons event events ih => simp [processEvents, ih]

/-! ## The payloads of the two devices -/

theorem upper_of_lt_26 : ∀ i < 26,
    'A' ≤ Char.ofNat ('A'.toNat + i) ∧ Char.ofNat ('A'.toNat + i) ≤ 'Z' := by
  decide

/-- The loop of `DeviceA::getDataAsString` appends one letter per iteration, the
`i`-th being `'A' + rand() % 26` for the `i`-th value of the random source. -/
theorem DeviceA.forLoop_data (n : Nat) (data : String) (rnd : RandSource) :
    (DeviceA.forLoop n data rnd).1.data =
      data.data ++ (List.range n).map (fun i => Char.ofNat ('A'.toNat + rnd i % 26)) := by
  induction n generalizing data rnd with
  | zero => simp [DeviceA.forLoop]
  | succ n ih =>
    rw [DeviceA.forLoop, ih, List.range_succ_eq_map]
    simp [rand, String.data_push, List.map_map, Function.comp_def]

theorem digitChar_isDigit : ∀ d < 10, (Nat.digitChar d).isDigit = true := by
  decide

theorem toDigitsCore_isDigit (fuel n : Nat) (ds : List Char)
    (hds : ∀ c ∈ ds, c.isDigit = true) :
    ∀ c ∈ Nat.toDigitsCore 10 fuel n ds, c.isDigit = true := by
  induction fuel generalizing n ds with
  | zero => simpa [Nat.toDigitsCore] using hds
  | succ fuel ih =>
    have hcons : ∀ c ∈ Nat.digitChar (n % 10) :: ds, c.isDigit = true := by
      intro c hc
      rcases List.mem_cons.1 hc with rfl | hc
      · exact digitChar_isDigit _ (Nat.mod_lt _ (by decide))
      · exact hds c hc
    rw [Nat.toDigitsCore]
    split
    · exact hcons
    · exact ih _ _ hcons

theorem toDigitsCore_ne_nil (fuel n : Nat) (ds : List Char) (h : ds ≠ [] ∨ 0 < fuel) :
    Nat.toDigitsCore 10 fuel n ds ≠ [] := by
  induction fuel generalizing n ds with
  | zero =>
    rcases h with h | h
    · simpa [Nat.toDigitsCore] using h
    · omega
  | succ fuel ih =>
    rw [Nat.toDigitsCore]
    split
    · simp
    · exact ih _ _ (Or.inl (by simp))

/-- The rendering of a number is a non-empty string of digits. -/
theorem to_string_digits (n : Nat) :
    (to_string n).data ≠ [] ∧ ∀ c ∈ (to_string n).data, c.isDigit = true :=
  ⟨toDigitsCore_ne_nil _ _ _ (Or.inr (Nat.succ_pos n)),
    toDigitsCore_isDigit _ _ _ (by simp)⟩

theorem to_string_no_space (n : Nat) : ' ' ∉ (to_string n).data := by
  intro h
  have := (to_string_digits n).2 _ h
  revert this
  decide

set_option maxRecDepth 100000 in
/-- Below 199 the rendering read as a decimal numeral gives the number back. -/
theorem decimalValue_to_string : ∀ n < 199, decimalValue (to_string n).data = n := by
  decide

/-- C8: `DeviceA::getDataAsString` returns a string whose length is the first
value of `rand()` modulo 501, hence at most 500, whose `i`-th character is
`'A' + r % 26` for the `i`-th later value `r` of `rand()`, and all of whose
characters lie in `'A' .. 'Z'`. -/
theorem DeviceA_getDataAsString_upper (rnd : RandSource) :
    (DeviceA.getDataAsString rnd).1.length = rnd 0 % 501 ∧
    (DeviceA.getDataAsString rnd).1.length ≤ 500 ∧
    (DeviceA.getDataAsString rnd).1.data =
      (List.range (rnd 0 % 501)).map (fun i => Char.ofNat ('A'.toNat + rnd (i + 1) % 26)) ∧
    ∀ c ∈ (DeviceA.getDataAsString rnd).1.data, 'A' ≤ c ∧ c ≤ 'Z' := by
  have hdata : (DeviceA.getDataAsString rnd).1.data =
      (List.range (rnd 0 % 501)).map (fun i => Char.ofNat ('A'.toNat + rnd (i + 1) % 26)) := by
    simp [DeviceA.getDataAsString, DeviceA.forLoop_data, rand]
  have hlen : (DeviceA.getDataAsString rnd).1.length = rnd 0 % 501 := by
    rw [String.length, hdata]
    simp
  refine ⟨hlen, ?_, hdata, ?_⟩
  · rw [hlen]
    have := Nat.mod_lt (rnd 0) (show 0 < 501 by decide)
    omega
  · intro c hc
    rw [hdata] at hc
    obtain ⟨i, -, rfl⟩ := List.mem_map.1 hc
    exact upper_of_lt_26 _ (Nat.mod_lt _ (by decide))

/-- C9: `DeviceB::getDataAsString` returns the renderings of the first three
values of `rand()` modulo 199, each below 199, joined by one space: cut at the
spaces, the string has exactly three fields, each a non-empty string of decimal
digits that denotes its number, so there is no space at either end. -/
theorem DeviceB_getDataAsString_three (rnd : RandSource) :
    (DeviceB.getDataAsString rnd).1 =
      to_string (rnd 0 % 199) ++ " " ++ to_string (rnd 1 % 199) ++ " " ++
        to_string (rnd 2 % 199) ∧
    (rnd 0 % 199 < 199 ∧ rnd 1 % 199 < 199 ∧ rnd 2 % 199 < 199) ∧
    (DeviceB.getDataAsString rnd).1.data.splitOn ' ' =
      [(to_string (rnd 0 % 199)).data, (to_string (rnd 1 % 199)).data,
        (to_string (rnd 2 % 199)).data] ∧
    (∀ field ∈ (DeviceB.getDataAsString rnd).1.data.splitOn ' ',
      field ≠ [] ∧ (∀ c ∈ field, c.isDigit = true) ∧ decimalValue field < 199) ∧
    ((DeviceB.getDataAsString rnd).1.data.splitOn ' ').map decimalValue =
      [rnd 0 % 199, rnd 1 % 199, rnd 2 % 199] := by
  have h199 : ∀ n : Nat, n % 199 < 199 := fun n => Nat.mod_lt n (by decide)
  have hsplit : (DeviceB.getDataAsString rnd).1.data.splitOn ' ' =
      [(to_string (rnd 0 % 199)).data, (to_string (rnd 1 % 199)).data,
        (to_string (rnd 2 % 199)).data] := by
    have hjoin : (DeviceB.getDataAsString rnd).1.data =
        [' '].intercalate [(to_string (rnd 0 % 199)).data, (to_string (rnd 1 % 199)).data,
          (to_string (rnd 2 % 199)).data] := by
      simp [DeviceB.getDataAsString, rand, List.intercalate]
    rw [hjoin]
    apply List.splitOn_intercalate
    · intro l hl
      simp only [List.mem_cons, List.mem_singleton, List.not_mem_nil, or_false] at hl
      rcases hl with rfl | rfl | rfl <;> exact to_string_no_space _
    · simp
  refine ⟨rfl, ⟨h199 _, h199 _, h199 _⟩, hsplit, ?_, ?_⟩
  · intro field hfield
    rw [hsplit] at hfield
    simp only [List.mem_cons, List.mem_singleton, List.not_mem_nil, or_false] at hfield
    rcases hfield with rfl | rfl | rfl <;>
      exact ⟨(to_string_digits _).1, (to_string_digits _).2,
        by rw [decimalValue_to_string _ (h199 _)]; exact h199 _⟩
  · rw [hsplit]
    simp [decimalValue_to_string _ (h199 _)]

end MsgQueue
